import Mathlib

/-!
The classes soci::details::holder and type_holder of include/soci/type-holder.h.

A shallow embedding of the type-erased value container of SOCI and of its
retrieval operation `holder::get<T>()`.

Conventions of the embedding

* A C++ call has one of three outcomes: it returns a value, it throws
  `type_holder_bad_cast` (recorded by the text of `what()`), or its behaviour
  is undefined by the language (a `static_cast` to a class that is not the
  dynamic class of the object followed by a member access, a floating to
  integer conversion whose truncated value does not fit).
* Integer values are mathematical integers; a conversion to an integer type
  of width `w` reduces modulo `2 ^ w` explicitly.
* Floating values are exact rationals together with the IEEE special values;
  conversions round to nearest, ties to even.
* What the language leaves to the implementation is fixed to the x86-64
  System V / Itanium C++ ABI with libstdc++: LP64 integer widths, `char` and
  `wchar_t` signed, `long double` with a 64 bit significand, mangled names for
  `std::type_info::name()`, and "std::bad_cast" for `std::bad_cast::what()`.
-/

namespace soci

/-- Modelled from the spec: the Kind Tag enumeration `soci::data_type`. It is
declared in soci/soci-backend.h, which is not among the sources at hand; the
eight enumerators are the ones the switch statements of type-holder.h name. -/
inductive data_type
  | dt_string
  | dt_date
  | dt_double
  | dt_integer
  | dt_long_long
  | dt_unsigned_long_long
  | dt_blob
  | dt_xml
  deriving DecidableEq, Repr

namespace details

open data_type

/-! ## Outcomes of a call -/

/-- Outcome of a C++ call producing an `α`. -/
inductive outcome (α : Type)
  | returned (v : α)
  | thrown (what : String)
  | undefined
  deriving DecidableEq, Repr

open outcome

/-- Sequencing: the continuation runs only on a returned value. -/
def outcome.bind {α β : Type} (o : outcome α) (f : α → outcome β) : outcome β :=
  match o with
  | returned v => f v
  | thrown w => thrown w
  | undefined => undefined

/-- Post-composition with a total function. -/
def outcome.map {α β : Type} (f : α → β) (o : outcome α) : outcome β :=
  o.bind (fun v => returned (f v))

/-- The call raised `type_holder_bad_cast`. -/
def outcome.raises {α : Type} (o : outcome α) : Bool :=
  match o with
  | thrown _ => true
  | _ => false

/-! ## Values -/

/-- The calendar breakdown `std::tm` of `<ctime>` (the nine standard members). -/
structure tm where
  tm_sec : Int
  tm_min : Int
  tm_hour : Int
  tm_mday : Int
  tm_mon : Int
  tm_year : Int
  tm_wday : Int
  tm_yday : Int
  tm_isdst : Int
  deriving DecidableEq, Repr

/-- A floating point value: an exact rational, or one of the IEEE specials. -/
inductive fp_value
  | fp_finite (q : ℚ)
  | fp_neg_zero
  | fp_inf (negative : Bool)
  | fp_nan
  deriving DecidableEq, Repr

open fp_value

/-- The value owned by a concrete container `type_holder<U>`: the constructor
names `U`. `p_other` stands for a container over any further type. -/
inductive payload
  | p_string (s : String)
  | p_tm (d : tm)
  | p_double (x : fp_value)
  | p_int (v : Int)
  | p_long_long (v : Int)
  | p_unsigned_long_long (v : Int)
  | p_other (type_name : String)
  deriving DecidableEq, Repr

open payload

/-- The object behind a `holder*`: the kind tag `dt` of the base class and the
owned value `t_` of the derived `type_holder<U>`. -/
structure holder where
  dt : data_type
  t_ : payload
  deriving DecidableEq, Repr

/-- The constructor `type_holder<U>(dt, t)` : `holder(dt), t_(t)`. -/
def type_holder (dt : data_type) (t : payload) : holder :=
  { dt := dt, t_ := t }

/-! ### `static_cast<const type_holder<U>*>(hl)->value()`

The cast is unchecked: the member access is defined only when the dynamic
class of the object is `type_holder<U>`. -/

/-- Reads `static_cast<const type_holder<std::string>*>(hl)->value()`. -/
def value_string (hl : holder) : outcome String :=
  match hl.t_ with
  | p_string s => returned s
  | _ => undefined

/-- Reads `static_cast<const type_holder<std::tm>*>(hl)->value()`. -/
def value_tm (hl : holder) : outcome tm :=
  match hl.t_ with
  | p_tm d => returned d
  | _ => undefined

/-- Reads `static_cast<const type_holder<double>*>(hl)->value()`. -/
def value_double (hl : holder) : outcome fp_value :=
  match hl.t_ with
  | p_double x => returned x
  | _ => undefined

/-- Reads `static_cast<const type_holder<int>*>(hl)->value()`. -/
def value_int (hl : holder) : outcome Int :=
  match hl.t_ with
  | p_int v => returned v
  | _ => undefined

/-- Reads `static_cast<const type_holder<long long>*>(hl)->value()`. -/
def value_long_long (hl : holder) : outcome Int :=
  match hl.t_ with
  | p_long_long v => returned v
  | _ => undefined

/-- Reads `static_cast<const type_holder<unsigned long long>*>(hl)->value()`. -/
def value_unsigned_long_long (hl : holder) : outcome Int :=
  match hl.t_ with
  | p_unsigned_long_long v => returned v
  | _ => undefined

/-! ## The failure `type_holder_bad_cast` -/

/-- The text of `std::bad_cast::what()`. -/
def std_bad_cast_what : String := "std::bad_cast"

/-- The constructor of `type_holder_bad_cast`: the text that `what()` returns. -/
def type_holder_bad_cast (dt : data_type) (context : String) : String :=
  let info := std_bad_cast_what
  let info :=
    match dt with
    | dt_string => info.append ": expected std::string, got "
    | dt_date => info.append ": expected std::tm, got "
    | dt_double => info.append ": expected double, got "
    | dt_integer => info.append ": expected int, got "
    | dt_long_long => info.append ": expected long long, got "
    | dt_unsigned_long_long => info.append ": expected unsigned long long, got "
    | dt_blob => info.append ": expected std::string(blob), got "
    | dt_xml => info.append ": expected std::string(xml), got "
  info.append context

/-! ## The text and temporal dispatch -/

/-- The specialisation `type_holder_cast<std::string>::cast`. -/
def type_holder_cast_string (dt : data_type) (hl : holder) : outcome String :=
  match dt with
  | dt_blob => value_string hl
  | dt_xml => value_string hl
  | dt_string => value_string hl
  | _ => thrown (type_holder_bad_cast dt "std::string")

/-- The specialisation `type_holder_cast<std::tm>::cast`. -/
def type_holder_cast_tm (dt : data_type) (hl : holder) : outcome tm :=
  match dt with
  | dt_date => value_tm hl
  | _ => thrown (type_holder_bad_cast dt "std::tm")

/-- The member `holder::get<std::string>()`. -/
def holder.get_string (self : holder) : outcome String :=
  type_holder_cast_string self.dt self

/-- The member `holder::get<std::tm>()`. -/
def holder.get_tm (self : holder) : outcome tm :=
  type_holder_cast_tm self.dt self

/-! ## Arithmetic result types and the conversion `(T)` -/

/-- The types `T` with `std::is_arithmetic<T>::value`. -/
inductive arith_type
  | t_bool
  | t_char
  | t_signed_char
  | t_unsigned_char
  | t_wchar_t
  | t_char16_t
  | t_char32_t
  | t_short
  | t_unsigned_short
  | t_int
  | t_unsigned_int
  | t_long
  | t_unsigned_long
  | t_long_long
  | t_unsigned_long_long
  | t_float
  | t_double
  | t_long_double
  deriving DecidableEq, Repr

open arith_type

/-- How values of an arithmetic type are represented: `bool`, an integer type
of a signedness and a width in bits, or a binary floating format given by the
length of its significand and its largest exponent. -/
inductive arith_class
  | c_bool
  | c_integer (is_signed : Bool) (bits : Nat)
  | c_floating (prec : Nat) (emax : Nat)
  deriving DecidableEq, Repr

open arith_class

/-- Representation of each arithmetic type (LP64, x86-64 System V). -/
def arith_type.classify : arith_type → arith_class
  | t_bool => c_bool
  | t_char => c_integer true 8
  | t_signed_char => c_integer true 8
  | t_unsigned_char => c_integer false 8
  | t_wchar_t => c_integer true 32
  | t_char16_t => c_integer false 16
  | t_char32_t => c_integer false 32
  | t_short => c_integer true 16
  | t_unsigned_short => c_integer false 16
  | t_int => c_integer true 32
  | t_unsigned_int => c_integer false 32
  | t_long => c_integer true 64
  | t_unsigned_long => c_integer false 64
  | t_long_long => c_integer true 64
  | t_unsigned_long_long => c_integer false 64
  | t_float => c_floating 24 127
  | t_double => c_floating 53 1023
  | t_long_double => c_floating 64 16383

/-- The text of `typeid(T).name()` for an arithmetic `T` (Itanium mangling). -/
def arith_type.name : arith_type → String
  | t_bool => "b"
  | t_char => "c"
  | t_signed_char => "a"
  | t_unsigned_char => "h"
  | t_wchar_t => "w"
  | t_char16_t => "Ds"
  | t_char32_t => "Di"
  | t_short => "s"
  | t_unsigned_short => "t"
  | t_int => "i"
  | t_unsigned_int => "j"
  | t_long => "l"
  | t_unsigned_long => "m"
  | t_long_long => "x"
  | t_unsigned_long_long => "y"
  | t_float => "f"
  | t_double => "d"
  | t_long_double => "e"

/-- A value of an arithmetic type. -/
inductive arith_value
  | a_bool (b : Bool)
  | a_int (v : Int)
  | a_fp (x : fp_value)
  deriving DecidableEq, Repr

open arith_value

/-- The values an integer type of the given signedness and width can hold. -/
def int_in_range (is_signed : Bool) (bits : Nat) (v : Int) : Prop :=
  if is_signed then -(2 ^ (bits - 1)) ≤ v ∧ v < 2 ^ (bits - 1) else 0 ≤ v ∧ v < 2 ^ bits

instance (is_signed : Bool) (bits : Nat) (v : Int) : Decidable (int_in_range is_signed bits v) := by
  unfold int_in_range; infer_instance

/-- Conversion of an integer to an unsigned type of `bits` bits. -/
def wrap_unsigned (bits : Nat) (v : Int) : Int :=
  v % 2 ^ bits

/-- Conversion of an integer to a signed type of `bits` bits (two's complement). -/
def wrap_signed (bits : Nat) (v : Int) : Int :=
  (v + 2 ^ (bits - 1)) % 2 ^ bits - 2 ^ (bits - 1)

/-- Conversion of an integer to an integer type. -/
def wrap_int (is_signed : Bool) (bits : Nat) (v : Int) : Int :=
  if is_signed then wrap_signed bits v else wrap_unsigned bits v

/-- Rounds a natural number to `prec` significant bits, to nearest, ties to even. -/
def round_nat (prec : Nat) (a : Nat) : Nat :=
  let k := (Nat.log2 a + 1) - prec
  let q := a / 2 ^ k
  let r := a % 2 ^ k
  let up := decide (2 ^ k < 2 * r) || (decide (2 * r = 2 ^ k) && decide (q % 2 = 1))
  (if up then q + 1 else q) * 2 ^ k

/-- Conversion of an integer to a floating format with `prec` significant
bits. No integer of at most 64 bits exceeds the exponent range of a format. -/
def fp_of_int (prec : Nat) (v : Int) : fp_value :=
  if 0 ≤ v then fp_finite (round_nat prec v.natAbs : ℚ)
  else fp_finite (-(round_nat prec v.natAbs : ℚ))

/-- Rounds a rational to the floating format with `prec` significant bits and
largest exponent `emax`: to nearest, ties to even, gradual underflow, overflow
to infinity. -/
def fp_round (prec emax : Nat) (q : ℚ) : fp_value :=
  if q = 0 then fp_finite 0
  else
    let a := |q|
    let e := max (Int.log 2 a) (1 - (emax : Int))
    let ulp : ℚ := 2 ^ (e - ((prec : Int) - 1))
    let n := a / ulp
    let f := Int.floor n
    let frac := n - f
    let m := if 1 / 2 < frac ∨ (frac = 1 / 2 ∧ f % 2 = 1) then f + 1 else f
    let r := (m : ℚ) * ulp
    if (2 : ℚ) ^ (emax + 1) ≤ r then fp_inf (decide (q < 0))
    else if r = 0 then (if q < 0 then fp_neg_zero else fp_finite 0)
    else if q < 0 then fp_finite (-r) else fp_finite r

/-- Conversion of a floating value to another floating format. -/
def fp_to_fp (prec emax : Nat) (x : fp_value) : fp_value :=
  match x with
  | fp_finite q => fp_round prec emax q
  | other => other

/-- Truncation of a rational toward zero. -/
def trunc (q : ℚ) : Int :=
  if 0 ≤ q then Int.floor q else Int.ceil q

/-- Conversion of a floating value to an integer type: truncation; undefined
when the truncated value cannot be represented. -/
def fp_to_int (is_signed : Bool) (bits : Nat) (x : fp_value) : outcome Int :=
  match x with
  | fp_finite q => if int_in_range is_signed bits (trunc q) then returned (trunc q) else undefined
  | fp_neg_zero => returned 0
  | _ => undefined

/-- Conversion of a floating value to `bool`: comparison with zero. -/
def fp_to_bool (x : fp_value) : Bool :=
  match x with
  | fp_finite q => decide (q ≠ 0)
  | fp_neg_zero => false
  | _ => true

/-- The C style cast `(T)v` of an integer value `v`. -/
def cast_of_int (T : arith_type) (v : Int) : outcome arith_value :=
  match T.classify with
  | c_bool => returned (a_bool (decide (v ≠ 0)))
  | c_integer is_signed bits => returned (a_int (wrap_int is_signed bits v))
  | c_floating prec _ => returned (a_fp (fp_of_int prec v))

/-- The C style cast `(T)x` of a `double` value `x`. -/
def cast_of_double (T : arith_type) (x : fp_value) : outcome arith_value :=
  match T.classify with
  | c_bool => returned (a_bool (fp_to_bool x))
  | c_integer is_signed bits => (fp_to_int is_signed bits x).map a_int
  | c_floating prec emax => returned (a_fp (fp_to_fp prec emax x))

/-! ## The arithmetic dispatch -/

/-- The specialisation `type_holder_cast<T>::cast` for arithmetic `T`. -/
def type_holder_cast_arithmetic (T : arith_type) (dt : data_type) (hl : holder) :
    outcome arith_value :=
  match dt with
  | dt_double => (value_double hl).bind (cast_of_double T)
  | dt_integer => (value_int hl).bind (cast_of_int T)
  | dt_long_long => (value_long_long hl).bind (cast_of_int T)
  | dt_unsigned_long_long => (value_unsigned_long_long hl).bind (cast_of_int T)
  | _ => thrown (type_holder_bad_cast dt T.name)

/-- The member `holder::get<T>()` for arithmetic `T`. -/
def holder.get_arithmetic (self : holder) (T : arith_type) : outcome arith_value :=
  type_holder_cast_arithmetic T self.dt self

/-! ## Retrieval for any supported result type -/

/-- The result types `T` for which `type_holder_cast<T>` is specialised. -/
inductive result_type
  | r_arithmetic (T : arith_type)
  | r_string
  | r_tm
  deriving DecidableEq, Repr

open result_type

/-- A value of a supported result type. -/
inductive cpp_value
  | v_arithmetic (a : arith_value)
  | v_string (s : String)
  | v_tm (d : tm)
  deriving DecidableEq, Repr

open cpp_value

/-- The member template `holder::get<T>()`: `type_holder_cast<T>::cast(dt, this)`. -/
def holder.get (self : holder) (T : result_type) : outcome cpp_value :=
  match T with
  | r_arithmetic A => (type_holder_cast_arithmetic A self.dt self).map v_arithmetic
  | r_string => (type_holder_cast_string self.dt self).map v_string
  | r_tm => (type_holder_cast_tm self.dt self).map v_tm

/-! ## What the specification calls the dispatch table -/

/-- The description of a kind, as the specification words it: the text between
"expected " and ", got " of a failure message. -/
def desc : data_type → String
  | dt_string => "std::string"
  | dt_date => "std::tm"
  | dt_double => "double"
  | dt_integer => "int"
  | dt_long_long => "long long"
  | dt_unsigned_long_long => "unsigned long long"
  | dt_blob => "std::string(blob)"
  | dt_xml => "std::string(xml)"

/-- The name of the requested type that a failure message ends with. -/
def result_type.name : result_type → String
  | r_arithmetic A => A.name
  | r_string => "std::string"
  | r_tm => "std::tm"

/-- The compatible kinds of each result category, as the specification lists
them: Double, Int32, Int64, UInt64 for an arithmetic request; Blob, Xml, Text
for a text request; Date for a temporal request. -/
def result_type.accepts : result_type → data_type → Bool
  | r_arithmetic _, dt_double => true
  | r_arithmetic _, dt_integer => true
  | r_arithmetic _, dt_long_long => true
  | r_arithmetic _, dt_unsigned_long_long => true
  | r_string, dt_blob => true
  | r_string, dt_xml => true
  | r_string, dt_string => true
  | r_tm, dt_date => true
  | _, _ => false

/-- The text `hay` contains the text `needle`. -/
def occurs_in (needle hay : String) : Prop :=
  ∃ before after : String, hay = before ++ needle ++ after

/-- The concrete storage types the dispatch reads. -/
inductive storage_type
  | s_string
  | s_tm
  | s_double
  | s_int
  | s_long_long
  | s_unsigned_long_long
  deriving DecidableEq, Repr

open storage_type

/-- The concrete storage type of a container, when it is one the dispatch reads. -/
def payload.storage : payload → Option storage_type
  | p_string _ => some s_string
  | p_tm _ => some s_tm
  | p_double _ => some s_double
  | p_int _ => some s_int
  | p_long_long _ => some s_long_long
  | p_unsigned_long_long _ => some s_unsigned_long_long
  | p_other _ => none

/-- The storage type a kind implies: the `U` of the `type_holder<U>` that a
successful cast on that kind reads. -/
def implied_storage : data_type → storage_type
  | dt_string => s_string
  | dt_date => s_tm
  | dt_double => s_double
  | dt_integer => s_int
  | dt_long_long => s_long_long
  | dt_unsigned_long_long => s_unsigned_long_long
  | dt_blob => s_string
  | dt_xml => s_string

/-- The producer paired the kind with the storage type the kind implies. -/
def holder.well_paired (h : holder) : Prop :=
  h.t_.storage = some (implied_storage h.dt)

instance (h : holder) : Decidable h.well_paired := by
  unfold holder.well_paired; infer_instance

/-! ## The identity checked downcast `checked_ptr_cast` -/

/-- A `std::type_info` object: where it lives, and the text of `name()`. -/
structure type_info where
  address : Nat
  name : String
  deriving DecidableEq, Repr

/-- The function `std::strcmp` on the characters of two C strings; a NUL
character ends a string. -/
def strcmp_chars : List Char → List Char → Int
  | [], [] => 0
  | [], b :: _ => 0 - (b.toNat : Int)
  | a :: _, [] => (a.toNat : Int) - 0
  | a :: as, b :: bs =>
    if a = b then (if a.toNat = 0 then 0 else strcmp_chars as bs)
    else (a.toNat : Int) - (b.toNat : Int)

/-- The function `std::strcmp`. -/
def strcmp (a b : String) : Int :=
  strcmp_chars a.data b.data

/-- The null pointer. -/
def NULL : Nat := 0

/-- The body of `checked_ptr_cast<T>(ptr)`, given the two objects
`ti_ptr = typeid(*ptr)` and `ti_ret = typeid(T)`; pointers are addresses. -/
def checked_ptr_cast_of (ti_ptr ti_ret : type_info) (ptr : Nat) : Nat :=
  if ti_ptr.address ≠ ti_ret.address ∧ strcmp ti_ptr.name ti_ret.name ≠ 0 then NULL
  else ptr

/-- A class type, as the runtime type information tells classes apart. A
class with external linkage is identified by its mangled name (`local_to` is
0). A class local to a translation unit (a class of an unnamed namespace, or a
template instantiated over one) is identified by its mangled name together with
the number `local_to` of that translation unit: two translation units can each
define such a class under the same mangled name, and these are distinct types. -/
structure cpp_class where
  mangled : String
  local_to : Nat
  deriving DecidableEq, Repr

/-- Itanium mangling of the storage types. -/
def storage_type.mangled : storage_type → String
  | s_string => "NSt7__cxx1112basic_stringIcSt11char_traitsIcESaIcEEE"
  | s_tm => "2tm"
  | s_double => "d"
  | s_int => "i"
  | s_long_long => "x"
  | s_unsigned_long_long => "y"

/-- The class `soci::details::holder`. -/
def c_holder : cpp_class :=
  { mangled := "N4soci7details6holderE", local_to := 0 }

/-- The class `soci::details::type_holder<U>` over a storage type `U`. -/
def c_type_holder (U : storage_type) : cpp_class :=
  { mangled := "N4soci7details11type_holderI" ++ U.mangled ++ "EE", local_to := 0 }

/-- The class `soci::details::type_holder<A>` over the class `A` that the
unnamed namespace of translation unit `unit` defines. -/
def c_type_holder_unnamed (unit : Nat) : cpp_class :=
  { mangled := "N4soci7details11type_holderIN12_GLOBAL__N_11AEEE", local_to := unit }

/-- A number for a text, different for different texts. -/
def encode_chars : List Char → Nat
  | [] => 0
  | c :: cs => (c.toNat + 1) + 2097152 * encode_chars cs

/-- The operator `typeid` evaluated for class `C` against the type information
of binary image number `image`: every image carries its own `type_info` object
for a class, at an address of its own, all with the mangled name of the class;
`name()` is the same for two classes that differ in `local_to` only. -/
def typeid_of (image : Nat) (C : cpp_class) : type_info :=
  { address := 4096 + 16 * Nat.pair image (Nat.pair C.local_to (encode_chars C.mangled.data)),
    name := C.mangled }

/-- A polymorphic object: the binary image whose type information its vtable
refers to, and its dynamic class. -/
structure object where
  image : Nat
  dynamic_class : cpp_class
  deriving DecidableEq, Repr

/-- A pointer `U*` to a polymorphic object. -/
structure pointer where
  address : Nat
  pointee : object
  deriving DecidableEq, Repr

/-- The call `checked_ptr_cast<T>(ptr)` made from code of binary image `image`. -/
def checked_ptr_cast (image : Nat) (T : cpp_class) (ptr : pointer) : Nat :=
  checked_ptr_cast_of (typeid_of ptr.pointee.image ptr.pointee.dynamic_class)
    (typeid_of image T) ptr.address

/-! ## Integer result types -/

/-- The integer result types (`std::is_integral`), with signedness and width;
`bool` holds the two values 0 and 1. -/
def arith_type.integral (T : arith_type) : Option (Bool × Nat) :=
  match T.classify with
  | c_bool => some (false, 1)
  | c_integer is_signed bits => some (is_signed, bits)
  | c_floating _ _ => none

/-- The integer a value of an integer type stands for (`true` is 1). -/
def arith_value.as_int : arith_value → Option Int
  | a_bool b => some (if b then 1 else 0)
  | a_int v => some v
  | a_fp _ => none

/-- The container has an integer kind and owns the integer `v` in the storage
type of that kind. -/
def stores_integer (h : holder) (v : Int) : Prop :=
  h = type_holder dt_integer (p_int v) ∨
  h = type_holder dt_long_long (p_long_long v) ∨
  h = type_holder dt_unsigned_long_long (p_unsigned_long_long v)

/-! ## Names of the storage types -/

/-- The C++ name of a storage type, as the specification writes it. -/
def storage_type.cpp_name : storage_type → String
  | s_string => "std::string"
  | s_tm => "std::tm"
  | s_double => "double"
  | s_int => "int"
  | s_long_long => "long long"
  | s_unsigned_long_long => "unsigned long long"

/-- A C string holds no NUL character. -/
def c_string (s : String) : Prop :=
  ∀ c ∈ s.data, c.toNat ≠ 0

instance (s : String) : Decidable (c_string s) := by
  unfold c_string; infer_instance

/-! ## Containers as objects in memory

The container is a heap object that holds the kind tag `dt` and the pointer
`t_` to a separately allocated value. The memory also records every address
handed to a `delete` expression, in order. -/

/-- What a live allocation holds. -/
inductive heap_cell
  | owned_value (p : payload)
  | base_object (dt : data_type)
  | typed_object (dt : data_type) (t_ : Nat)
  deriving DecidableEq, Repr

open heap_cell

/-- The memory: the live allocations by address, and the addresses released
by `delete` so far. -/
structure memory where
  cells : Nat → Option heap_cell
  deleted : List Nat

/-- The constructor `type_holder<U>(dt, t)` run on the storage at address
`a`: it stores `dt` in the base and `t` in `t_`. -/
def new_type_holder (m : memory) (a : Nat) (dt : data_type) (t : Nat) : memory :=
  { cells := Function.update m.cells a (some (typed_object dt t)), deleted := m.deleted }

/-- The container that the object at address `a` presents to the dispatch:
its kind tag and the value its `t_` points to. An object of class `holder`
itself, or one whose `t_` points to no live value, has no value that a
`type_holder<U>` read could return; it is presented with a `p_other` payload,
every read of which is undefined. -/
def memory.holder_at (m : memory) (a : Nat) : Option holder :=
  match m.cells a with
  | some (typed_object dt t) =>
    match m.cells t with
    | some (owned_value p) => some { dt := dt, t_ := p }
    | _ => some { dt := dt, t_ := p_other "" }
  | some (base_object dt) => some { dt := dt, t_ := p_other "" }
  | _ => none

/-- The call `p->get<T>()` on the object at address `a`: the result, and the
memory the call leaves. The body only reads `dt` and `*t_`. -/
def holder_get_at (m : memory) (a : Nat) (T : result_type) : outcome cpp_value × memory :=
  match m.holder_at a with
  | some h => (h.get T, m)
  | none => (undefined, m)

/-- The call `value()` on the `type_holder<U>` object at address `a`:
`return *t_;`, and the memory the call leaves. -/
def type_holder_value_at (m : memory) (a : Nat) : outcome payload × memory :=
  match m.cells a with
  | some (typed_object _ t) =>
    match m.cells t with
    | some (owned_value p) => (returned p, m)
    | _ => (undefined, m)
  | _ => (undefined, m)

/-- The results of `n` successive calls `p->get<T>()`, each on the memory the
previous call left, and the memory after the last one. -/
def get_repeatedly (m : memory) (a : Nat) (T : result_type) :
    Nat → List (outcome cpp_value) × memory
  | 0 => ([], m)
  | n + 1 =>
    let r := holder_get_at m a T
    let rest := get_repeatedly r.2 a T n
    (r.1 :: rest.1, rest.2)

/-- The expression `delete t_` on a pointer to a value: a null pointer is
left alone, a live value is released, anything else is undefined. -/
def delete_value (m : memory) (t : Nat) : outcome memory :=
  if t = NULL then returned m
  else
    match m.cells t with
    | some (owned_value _) =>
      returned { cells := Function.update m.cells t none, deleted := m.deleted ++ [t] }
    | _ => undefined

/-- The destructor `~type_holder() override { delete t_; }`. -/
def type_holder_destructor (m : memory) (t_ : Nat) : outcome memory :=
  delete_value m t_

/-- The destructor `virtual ~holder() {}`. -/
def holder_destructor (m : memory) : outcome memory :=
  returned m

/-- Release of the storage of the object itself at the end of `delete p`. -/
def release_object (p : Nat) (m : memory) : outcome memory :=
  returned { cells := Function.update m.cells p none, deleted := m.deleted ++ [p] }

/-- The expression `delete p` for a `holder* p`. The destructor is virtual:
the destructor of the dynamic class runs first, then the one of the base
class, then the storage of the object is released. -/
def delete_holder (m : memory) (p : Nat) : outcome memory :=
  if p = NULL then returned m
  else
    match m.cells p with
    | some (typed_object _ t) =>
      ((type_holder_destructor m t).bind holder_destructor).bind (release_object p)
    | some (base_object _) => (holder_destructor m).bind (release_object p)
    | _ => undefined

/-- A memory with one owned value, the `int` 42 at address 32, and nothing
released yet. -/
def sample_memory : memory :=
  { cells := fun x => if x = 32 then some (owned_value (p_int 42)) else none, deleted := [] }

end details

end soci

namespace soci.details

open data_type outcome payload fp_value arith_type arith_class arith_value result_type
open cpp_value storage_type cpp_class heap_cell

/-! ## Text retrieval -/

/-- C1: for each of the kinds Text, Blob and Xml and every string `s`, the
container `type_holder<std::string>(k, s)` returns exactly `s` from
`get<std::string>()`: it neither fails nor alters the text. -/
theorem get_string_roundtrip (k : data_type) (s : String)
    (hk : k = dt_string ∨ k = dt_blob ∨ k = dt_xml) :
    (type_holder k (p_string s)).get_string = returned s := by
  rcases hk with h | h | h <;> subst h <;> rfl

/-- Witness of C1 at kind Blob and the text "abc". -/
theorem get_string_roundtrip_witness :
    (type_holder dt_blob (p_string "abc")).get_string = returned "abc" :=
  get_string_roundtrip dt_blob "abc" (Or.inr (Or.inl rfl))


/-! ## Integer retrieval -/

theorem wrap_unsigned_spec (w : Nat) (v : Int) :
    int_in_range false w (wrap_unsigned w v) ∧
    wrap_unsigned w v % 2 ^ w = v % 2 ^ w ∧
    (∀ m, int_in_range false w m → m % 2 ^ w = v % 2 ^ w → m = wrap_unsigned w v) ∧
    (int_in_range false w v → wrap_unsigned w v = v) := by
  have hp : (0 : Int) < 2 ^ w := by positivity
  simp only [int_in_range, wrap_unsigned, Bool.false_eq_true, if_false]
  refine ⟨⟨Int.emod_nonneg _ hp.ne', Int.emod_lt_of_pos _ hp⟩, Int.emod_emod_of_dvd _ dvd_rfl,
    ?_, ?_⟩
  · intro m hm h
    rw [← h, Int.emod_eq_of_lt hm.1 hm.2]
  · intro hv
    exact Int.emod_eq_of_lt hv.1 hv.2

theorem wrap_signed_spec (w : Nat) (hw : 0 < w) (v : Int) :
    int_in_range true w (wrap_signed w v) ∧
    wrap_signed w v % 2 ^ w = v % 2 ^ w ∧
    (∀ m, int_in_range true w m → m % 2 ^ w = v % 2 ^ w → m = wrap_signed w v) ∧
    (int_in_range true w v → wrap_signed w v = v) := by
  obtain ⟨n, rfl⟩ : ∃ n, w = n + 1 := ⟨w - 1, by omega⟩
  have hH : (0 : Int) < 2 ^ n := by positivity
  have hP : (2 : Int) ^ (n + 1) = 2 * 2 ^ n := by ring
  simp only [int_in_range, wrap_signed, if_true, Nat.add_sub_cancel]
  generalize (2 : Int) ^ n = H at hH hP ⊢
  generalize (2 : Int) ^ (n + 1) = P at hP ⊢
  have hPpos : 0 < P := by omega
  have h0 := Int.emod_nonneg (v + H) hPpos.ne'
  have h1 := Int.emod_lt_of_pos (v + H) hPpos
  refine ⟨⟨by omega, by omega⟩, ?_, ?_, ?_⟩
  · have : (v + H) % P - H = v + P * (-((v + H) / P)) := by
      have := Int.emod_add_ediv (v + H) P
      rw [mul_neg]
      omega
    rw [this, Int.add_mul_emod_self_left]
  · intro m hm h
    have e1 : (m + H) % P = (v + H) % P := by
      rw [Int.add_emod, h, ← Int.add_emod]
    have e2 : (m + H) % P = m + H := Int.emod_eq_of_lt (by omega) (by omega)
    omega
  · intro hv
    have : (v + H) % P = v + H := Int.emod_eq_of_lt (by omega) (by omega)
    omega

theorem wrap_int_spec (sg : Bool) (w : Nat) (hw : 0 < w) (v : Int) :
    int_in_range sg w (wrap_int sg w v) ∧
    wrap_int sg w v % 2 ^ w = v % 2 ^ w ∧
    (∀ m, int_in_range sg w m → m % 2 ^ w = v % 2 ^ w → m = wrap_int sg w v) ∧
    (int_in_range sg w v → wrap_int sg w v = v) := by
  cases sg
  · simpa [wrap_int] using wrap_unsigned_spec w v
  · simpa [wrap_int] using wrap_signed_spec w hw v

theorem get_arithmetic_of_stores_integer (h : holder) (v : Int) (T : arith_type)
    (hh : stores_integer h v) : h.get_arithmetic T = cast_of_int T v := by
  rcases hh with e | e | e <;> subst e <;> rfl

theorem integral_width_pos (T : arith_type) (sg : Bool) (w : Nat)
    (hT : T.integral = some (sg, w)) : 0 < w := by
  cases T <;> simp [arith_type.integral, arith_type.classify] at hT <;> omega

/-- C2 (as amended): for every integer kind, every stored value `v` and every
integer result type `T` of signedness `sg` and width `w`, `get<T>()` returns a
value `n` of `T`, equal to `v` whenever `T` can represent `v`; when `T` is not
`bool`, `n` is the unique value of `T` congruent to `v` modulo `2 ^ w`. -/
theorem get_integer_modular (h : holder) (v : Int) (T : arith_type) (sg : Bool) (w : Nat)
    (hh : stores_integer h v) (hT : T.integral = some (sg, w)) :
    ∃ r n, h.get_arithmetic T = returned r ∧ r.as_int = some n ∧ int_in_range sg w n ∧
      (int_in_range sg w v → n = v) ∧
      (T ≠ t_bool → n % 2 ^ w = v % 2 ^ w ∧
        ∀ m, int_in_range sg w m → m % 2 ^ w = v % 2 ^ w → m = n) := by
  rw [get_arithmetic_of_stores_integer h v T hh]
  have hw := integral_width_pos T sg w hT
  unfold arith_type.integral at hT
  unfold cast_of_int
  cases hc : T.classify with
  | c_bool =>
    rw [hc] at hT
    simp only [Option.some.injEq, Prod.mk.injEq] at hT
    obtain ⟨rfl, rfl⟩ := hT
    refine ⟨_, _, rfl, rfl, ?_, ?_, ?_⟩
    · by_cases hv : v = 0 <;> simp [int_in_range, hv]
    · intro hr
      simp only [int_in_range, Bool.false_eq_true, if_false] at hr
      by_cases hv : v = 0
      · simp [hv]
      · have : v = 1 := by omega
        simp [this]
    · intro hb
      cases T <;> simp [arith_type.classify] at hc
      exact absurd rfl hb
  | c_integer s b =>
    rw [hc] at hT
    simp only [Option.some.injEq, Prod.mk.injEq] at hT
    obtain ⟨rfl, rfl⟩ := hT
    obtain ⟨h1, h2, h3, h4⟩ := wrap_int_spec s b hw v
    exact ⟨_, _, rfl, rfl, h1, h4, fun _ => ⟨h2, h3⟩⟩
  | c_floating p e =>
    rw [hc] at hT
    simp at hT

/-- Witness of C2 (as amended): the `int` value -7 read as `unsigned char`. -/
theorem get_integer_modular_witness :
    ∃ r n, (type_holder dt_integer (p_int (-7))).get_arithmetic t_unsigned_char = returned r ∧
      r.as_int = some n ∧ int_in_range false 8 n ∧
      (int_in_range false 8 (-7) → n = -7) ∧
      (t_unsigned_char ≠ t_bool → n % 2 ^ 8 = -7 % 2 ^ 8 ∧
        ∀ m, int_in_range false 8 m → m % 2 ^ 8 = -7 % 2 ^ 8 → m = n) :=
  get_integer_modular (type_holder dt_integer (p_int (-7))) (-7) t_unsigned_char false 8
    (Or.inl rfl) rfl

/-- C2 (as stated) fails for `bool`: the `int` value 2 is read as `true`, that
is 1, which is congruent to 2 modulo `2 ^ w` for no width `w > 0`. -/
theorem get_bool_not_modular :
    (type_holder dt_integer (p_int 2)).get_arithmetic t_bool = returned (a_bool true) ∧
    (a_bool true).as_int = some 1 ∧
    ¬ ∃ w : Nat, 0 < w ∧ ∃ r n, (type_holder dt_integer (p_int 2)).get_arithmetic t_bool
        = returned r ∧ r.as_int = some n ∧ n % 2 ^ w = 2 % 2 ^ w := by
  refine ⟨rfl, rfl, ?_⟩
  rintro ⟨w, hw, r, n, hr, hn, hmod⟩
  have hr2 : r = a_bool true := by
    have : (type_holder dt_integer (p_int 2)).get_arithmetic t_bool = returned (a_bool true) := rfl
    rw [this] at hr
    exact (outcome.returned.inj hr).symm
  subst hr2
  simp only [arith_value.as_int, if_true, Option.some.injEq] at hn
  subst hn
  obtain ⟨k, rfl⟩ : ∃ k, w = k + 1 := ⟨w - 1, by omega⟩
  have hk : (0 : Int) < 2 ^ k := by positivity
  rw [pow_succ] at hmod
  generalize (2 : Int) ^ k = K at hk hmod
  have h1 := Int.emod_emod_of_dvd 1 (Dvd.intro_left K rfl : (2 : Int) ∣ K * 2)
  have h2 := Int.emod_emod_of_dvd 2 (Dvd.intro_left K rfl : (2 : Int) ∣ K * 2)
  rw [hmod] at h1
  omega

/-! ## Temporal retrieval -/

/-- C3: for every `std::tm` value `d`, the container
`type_holder<std::tm>(dt_date, d)` returns from `get<std::tm>()`, without
failure, a breakdown equal to `d`, hence equal to it in every field. -/
theorem get_tm_roundtrip (d : tm) :
    (type_holder dt_date (p_tm d)).get_tm = returned d ∧
    ∀ r, (type_holder dt_date (p_tm d)).get_tm = returned r →
      r.tm_sec = d.tm_sec ∧ r.tm_min = d.tm_min ∧ r.tm_hour = d.tm_hour ∧
      r.tm_mday = d.tm_mday ∧ r.tm_mon = d.tm_mon ∧ r.tm_year = d.tm_year ∧
      r.tm_wday = d.tm_wday ∧ r.tm_yday = d.tm_yday ∧ r.tm_isdst = d.tm_isdst := by
  refine ⟨rfl, ?_⟩
  intro r hr
  have : returned d = returned r := hr
  cases this
  exact ⟨rfl, rfl, rfl, rfl, rfl, rfl, rfl, rfl, rfl⟩

/-! ## Which kinds each request rejects -/

theorem cast_of_int_raises (T : arith_type) (v : Int) : (cast_of_int T v).raises = false := by
  unfold cast_of_int
  cases T.classify <;> rfl

theorem fp_to_int_raises (sg : Bool) (w : Nat) (x : fp_value) :
    ((fp_to_int sg w x).map a_int).raises = false := by
  cases x with
  | fp_finite q =>
    unfold fp_to_int
    by_cases hq : int_in_range sg w (trunc q)
    · simp only [hq, if_true]; rfl
    · simp only [hq, if_false]; rfl
  | fp_neg_zero => rfl
  | fp_inf n => rfl
  | fp_nan => rfl

theorem cast_of_double_raises (T : arith_type) (x : fp_value) :
    (cast_of_double T x).raises = false := by
  unfold cast_of_double
  cases T.classify with
  | c_bool => rfl
  | c_integer sg w => exact fp_to_int_raises sg w x
  | c_floating p e => rfl

theorem bind_value_raises {α β : Type} (o : outcome α) (f : α → outcome β)
    (ho : o.raises = false) (hf : ∀ a, (f a).raises = false) : (o.bind f).raises = false := by
  cases o with
  | returned v => exact hf v
  | thrown w => exact absurd ho (by simp [outcome.raises])
  | undefined => rfl

theorem value_double_raises (hl : holder) : (value_double hl).raises = false := by
  unfold value_double; cases hl.t_ <;> rfl

theorem value_int_raises (hl : holder) : (value_int hl).raises = false := by
  unfold value_int; cases hl.t_ <;> rfl

theorem value_long_long_raises (hl : holder) : (value_long_long hl).raises = false := by
  unfold value_long_long; cases hl.t_ <;> rfl

theorem value_unsigned_long_long_raises (hl : holder) :
    (value_unsigned_long_long hl).raises = false := by
  unfold value_unsigned_long_long; cases hl.t_ <;> rfl

theorem value_string_raises (hl : holder) : (value_string hl).raises = false := by
  unfold value_string; cases hl.t_ <;> rfl

theorem value_tm_raises (hl : holder) : (value_tm hl).raises = false := by
  unfold value_tm; cases hl.t_ <;> rfl

theorem raises_thrown {α : Type} (w : String) : (thrown w : outcome α).raises = true := rfl

theorem raises_false_of_returned {α : Type} (o : outcome α) (v : α) (h : o = returned v) :
    o.raises = false := by
  subst h; rfl

/-- C4: for every arithmetic result type `T` and every container, `get<T>()`
raises `type_holder_bad_cast` if and only if the kind is one of Text, Date,
Blob, Xml; for the kinds Double, Int32, Int64, UInt64 it never raises. -/
theorem get_arithmetic_raises_iff (h : holder) (T : arith_type) :
    ((h.get_arithmetic T).raises = true ↔
      (h.dt = dt_string ∨ h.dt = dt_date ∨ h.dt = dt_blob ∨ h.dt = dt_xml)) ∧
    ((h.dt = dt_double ∨ h.dt = dt_integer ∨ h.dt = dt_long_long ∨
      h.dt = dt_unsigned_long_long) → (h.get_arithmetic T).raises = false) := by
  obtain ⟨dt, t⟩ := h
  have hd := bind_value_raises _ _ (value_double_raises ⟨dt, t⟩) (cast_of_double_raises T)
  have hi := bind_value_raises _ _ (value_int_raises ⟨dt, t⟩) (cast_of_int_raises T)
  have hl := bind_value_raises _ _ (value_long_long_raises ⟨dt, t⟩) (cast_of_int_raises T)
  have hu := bind_value_raises _ _ (value_unsigned_long_long_raises ⟨dt, t⟩)
    (cast_of_int_raises T)
  cases dt <;>
    simp [holder.get_arithmetic, type_holder_cast_arithmetic, raises_thrown, hd, hi, hl, hu]

/-- C5: for every container, `get<std::string>()` raises
`type_holder_bad_cast` if and only if the kind is none of Blob, Xml, Text, that
is one of Date, Double, Int32, Int64, UInt64; for those five kinds no value is
ever returned as text. -/
theorem get_string_raises_iff (h : holder) :
    ((h.get_string).raises = true ↔
      ¬ (h.dt = dt_blob ∨ h.dt = dt_xml ∨ h.dt = dt_string)) ∧
    (¬ (h.dt = dt_blob ∨ h.dt = dt_xml ∨ h.dt = dt_string) ↔
      (h.dt = dt_date ∨ h.dt = dt_double ∨ h.dt = dt_integer ∨ h.dt = dt_long_long ∨
        h.dt = dt_unsigned_long_long)) ∧
    ((h.dt = dt_date ∨ h.dt = dt_double ∨ h.dt = dt_integer ∨ h.dt = dt_long_long ∨
        h.dt = dt_unsigned_long_long) → ∀ s, h.get_string ≠ returned s) := by
  obtain ⟨dt, t⟩ := h
  have hs := value_string_raises ⟨dt, t⟩
  refine ⟨?_, ?_, ?_⟩
  · cases dt <;> simp [holder.get_string, type_holder_cast_string, raises_thrown, hs]
  · cases dt <;> simp
  · intro hk s hr
    have h1 := raises_false_of_returned _ s hr
    cases dt <;> simp [holder.get_string, type_holder_cast_string, raises_thrown] at hk h1

/-- C6: for every container, `get<std::tm>()` raises `type_holder_bad_cast` if
and only if the kind is not Date; a temporal request that returns a value was
made on a container of kind Date. -/
theorem get_tm_raises_iff (h : holder) :
    ((h.get_tm).raises = true ↔ h.dt ≠ dt_date) ∧
    (∀ d, h.get_tm = returned d → h.dt = dt_date) := by
  obtain ⟨dt, t⟩ := h
  have hs := value_tm_raises ⟨dt, t⟩
  have key : (holder.get_tm ⟨dt, t⟩).raises = true ↔ dt ≠ dt_date := by
    cases dt <;> simp [holder.get_tm, type_holder_cast_tm, raises_thrown, hs]
  refine ⟨key, ?_⟩
  intro d hr
  have h1 := raises_false_of_returned _ d hr
  by_contra hne
  rw [key.mpr hne] at h1
  exact absurd h1 (by simp)

/-! ## The failure message -/

theorem type_holder_bad_cast_eq (dt : data_type) (context : String) :
    type_holder_bad_cast dt context =
      std_bad_cast_what ++ ": expected " ++ desc dt ++ ", got " ++ context := by
  cases dt <;> exact congrArg (fun t : String => t ++ context) (by decide)

theorem get_of_rejected (h : holder) (T : result_type) (hrej : T.accepts h.dt = false) :
    h.get T = thrown (type_holder_bad_cast h.dt T.name) := by
  obtain ⟨dt, t⟩ := h
  cases T <;> cases dt <;> first | rfl | simp [result_type.accepts] at hrej

/-- C7: for every kind `k` and every result category that rejects `k`, the
failure raised by `get<T>()` has as message exactly the text of
`std::bad_cast::what()` followed by ": expected ", the description of `k`,
", got " and the name of the requested type; hence the message contains both
the kind description and the requested type name. -/
theorem get_failure_message (h : holder) (T : result_type)
    (hrej : T.accepts h.dt = false) :
    h.get T = thrown (std_bad_cast_what ++ ": expected " ++ desc h.dt ++ ", got " ++ T.name) ∧
    occurs_in (desc h.dt)
      (std_bad_cast_what ++ ": expected " ++ desc h.dt ++ ", got " ++ T.name) ∧
    occurs_in T.name
      (std_bad_cast_what ++ ": expected " ++ desc h.dt ++ ", got " ++ T.name) := by
  refine ⟨?_, ?_, ?_⟩
  · rw [get_of_rejected h T hrej, type_holder_bad_cast_eq]
  · exact ⟨std_bad_cast_what ++ ": expected ", ", got " ++ T.name, by
      simp only [String.append_assoc]⟩
  · exact ⟨std_bad_cast_what ++ ": expected " ++ desc h.dt ++ ", got ", "", by
      simp only [String.append_empty]⟩

/-- Witness of C7: kind Int32, value 42, `get<std::string>()` fails with a
message that contains "expected int, got std::string". -/
theorem get_failure_message_witness :
    result_type.accepts r_string dt_integer = false ∧
    (type_holder dt_integer (p_int 42)).get r_string
      = thrown "std::bad_cast: expected int, got std::string" ∧
    occurs_in "expected int, got std::string" "std::bad_cast: expected int, got std::string" :=
  ⟨rfl,
   (get_failure_message (type_holder dt_integer (p_int 42)) r_string rfl).1.trans
     (congrArg thrown (by decide)),
   ⟨"std::bad_cast: ", "", by decide⟩⟩

/-! ## Int32 read as double -/

theorem round_nat_of_lt (prec a : Nat) (hp : 0 < prec) (ha : a < 2 ^ prec) :
    round_nat prec a = a := by
  have hk : Nat.log2 a + 1 - prec = 0 := by
    by_cases h0 : a = 0
    · subst h0
      have : Nat.log2 0 = 0 := by simp [Nat.log2]
      omega
    · have := (Nat.log2_lt h0).mpr ha
      omega
  simp [round_nat, hk, Nat.mod_one]

/-- C10: for every 32 bit `int` value `v`, the container of kind Int32 over
`v` returns from `get<double>()` the double whose exact value is `v`. -/
theorem get_double_of_int32_exact (v : Int) (hv : int_in_range true 32 v) :
    (type_holder dt_integer (p_int v)).get_arithmetic t_double
      = returned (a_fp (fp_finite (v : ℚ))) := by
  simp only [int_in_range, if_true] at hv
  have hlt : v.natAbs < 2 ^ 53 := by omega
  have hr := round_nat_of_lt 53 v.natAbs (by decide) hlt
  show returned (a_fp (fp_of_int 53 v)) = _
  unfold fp_of_int
  rw [hr]
  by_cases h0 : 0 ≤ v
  · simp only [h0, if_true]
    rw [Nat.cast_natAbs, abs_of_nonneg h0]
  · simp only [h0, if_false]
    rw [Nat.cast_natAbs, abs_of_neg (by omega), Int.cast_neg, neg_neg]

/-- Witness of C10: the `int` 42 is read as the double 42.0. -/
theorem get_double_of_int32_exact_witness :
    int_in_range true 32 42 ∧
    (type_holder dt_integer (p_int 42)).get_arithmetic t_double
      = returned (a_fp (fp_finite 42)) :=
  ⟨by decide, by
    have h := get_double_of_int32_exact 42 (by decide)
    simpa using h⟩

/-! ## Containers whose storage type does not match their kind -/

theorem raises_map {α β : Type} (f : α → β) (o : outcome α) : (o.map f).raises = o.raises := by
  cases o <;> rfl

theorem get_raises_eq (h : holder) (T : result_type) :
    (h.get T).raises = !T.accepts h.dt := by
  obtain ⟨dt, t⟩ := h
  have hs := value_string_raises ⟨dt, t⟩
  have ht := value_tm_raises ⟨dt, t⟩
  cases T with
  | r_arithmetic A =>
    have hd := bind_value_raises _ _ (value_double_raises ⟨dt, t⟩) (cast_of_double_raises A)
    have hi := bind_value_raises _ _ (value_int_raises ⟨dt, t⟩) (cast_of_int_raises A)
    have hl := bind_value_raises _ _ (value_long_long_raises ⟨dt, t⟩) (cast_of_int_raises A)
    have hu := bind_value_raises _ _ (value_unsigned_long_long_raises ⟨dt, t⟩)
      (cast_of_int_raises A)
    cases dt <;>
      simp [holder.get, raises_map, type_holder_cast_arithmetic, result_type.accepts,
        raises_thrown, hd, hi, hl, hu]
  | r_string =>
    cases dt <;>
      simp [holder.get, raises_map, type_holder_cast_string, result_type.accepts,
        raises_thrown, hs]
  | r_tm =>
    cases dt <;>
      simp [holder.get, raises_map, type_holder_cast_tm, result_type.accepts,
        raises_thrown, ht]

/-- C8 (as amended): retrieval checks the kind tag only. For every container
and every result type, `get<T>()` raises `type_holder_bad_cast` exactly when
the category of `T` rejects the kind; for a container whose concrete storage
type differs from the one its kind implies, a request of a category that
accepts the kind goes through the unchecked `static_cast`: nothing is raised
and the behaviour is undefined. -/
theorem get_of_mismatch (h : holder) (T : result_type) (hm : ¬ h.well_paired) :
    ((h.get T).raises = true ↔ T.accepts h.dt = false) ∧
    (T.accepts h.dt = true → h.get T = undefined ∧ (h.get T).raises = false) := by
  have hr := get_raises_eq h T
  refine ⟨by rw [hr]; cases T.accepts h.dt <;> simp, ?_⟩
  intro hacc
  refine ⟨?_, by rw [hr, hacc]; rfl⟩
  obtain ⟨dt, t⟩ := h
  cases T <;> cases dt <;> simp [result_type.accepts] at hacc <;> cases t <;>
    first
    | rfl
    | exact absurd (by unfold holder.well_paired; rfl) hm

/-- Witness of C8 (as amended): kind Int32 over a `std::string` payload,
read as `int`. -/
theorem get_of_mismatch_witness :
    ¬ (type_holder dt_integer (p_string "abc")).well_paired ∧
    (((type_holder dt_integer (p_string "abc")).get (r_arithmetic t_int)).raises = true ↔
      result_type.accepts (r_arithmetic t_int) dt_integer = false) ∧
    (result_type.accepts (r_arithmetic t_int) dt_integer = true →
      (type_holder dt_integer (p_string "abc")).get (r_arithmetic t_int) = undefined ∧
      ((type_holder dt_integer (p_string "abc")).get (r_arithmetic t_int)).raises = false) :=
  ⟨by decide,
   get_of_mismatch (type_holder dt_integer (p_string "abc")) (r_arithmetic t_int) (by decide)⟩

/-- C8 (as stated) fails: a container of kind Int32 built over a `long long`
payload is not well paired, an `int` request accepts its kind, and `get<int>()`
raises nothing: the mismatch goes undetected and the behaviour is undefined. -/
theorem get_mismatch_undetected :
    ¬ (type_holder dt_integer (p_long_long 42)).well_paired ∧
    result_type.accepts (r_arithmetic t_int) dt_integer = true ∧
    (type_holder dt_integer (p_long_long 42)).get (r_arithmetic t_int) = undefined ∧
    ((type_holder dt_integer (p_long_long 42)).get (r_arithmetic t_int)).raises = false :=
  ⟨by decide, rfl, rfl, rfl⟩

/-! ## The identity checked downcast -/

theorem strcmp_chars_self (l : List Char) : strcmp_chars l l = 0 := by
  induction l with
  | nil => rfl
  | cons a as ih =>
    simp only [strcmp_chars, if_true]
    split
    · rfl
    · exact ih

theorem char_eq_of_toNat_eq (a b : Char) (h : a.toNat = b.toNat) : a = b := by
  apply Char.ext
  apply UInt32.ext
  exact h

theorem strcmp_chars_eq_zero (a b : List Char)
    (ha : ∀ c ∈ a, c.toNat ≠ 0) (hb : ∀ c ∈ b, c.toNat ≠ 0)
    (h : strcmp_chars a b = 0) : a = b := by
  induction a generalizing b with
  | nil =>
    cases b with
    | nil => rfl
    | cons y ys =>
      have := hb y (List.mem_cons_self _ _)
      simp only [strcmp_chars] at h
      omega
  | cons x xs ih =>
    cases b with
    | nil =>
      have := ha x (List.mem_cons_self _ _)
      simp only [strcmp_chars] at h
      omega
    | cons y ys =>
      have hx := ha x (List.mem_cons_self _ _)
      simp only [strcmp_chars] at h
      by_cases hxy : x = y
      · subst hxy
        simp only [if_true, hx, if_false] at h
        rw [ih ys (fun c hc => ha c (List.mem_cons_of_mem _ hc))
          (fun c hc => hb c (List.mem_cons_of_mem _ hc)) h]
      · simp only [hxy, if_false] at h
        exact absurd (char_eq_of_toNat_eq x y (by omega)) hxy

theorem strcmp_eq_zero_iff (a b : String) (ha : c_string a) (hb : c_string b) :
    strcmp a b = 0 ↔ a = b := by
  constructor
  · intro h
    exact String.ext (strcmp_chars_eq_zero _ _ ha hb h)
  · rintro rfl
    exact strcmp_chars_self _

theorem char_toNat_lt (c : Char) : c.toNat < 2097152 := by
  have h := c.valid
  simp only [UInt32.isValidChar, Nat.isValidChar] at h
  show c.val.toNat < 2097152
  omega

theorem encode_chars_injective (a b : List Char) (h : encode_chars a = encode_chars b) :
    a = b := by
  induction a generalizing b with
  | nil =>
    cases b with
    | nil => rfl
    | cons y ys =>
      simp only [encode_chars] at h
      omega
  | cons x xs ih =>
    cases b with
    | nil =>
      simp only [encode_chars] at h
      omega
    | cons y ys =>
      simp only [encode_chars] at h
      have hx := char_toNat_lt x
      have hy := char_toNat_lt y
      have h1 : x.toNat = y.toNat := by omega
      have h2 : encode_chars xs = encode_chars ys := by omega
      rw [char_eq_of_toNat_eq x y h1, ih ys h2]

theorem typeid_address_eq (i j : Nat) (C D : cpp_class)
    (h : (typeid_of i C).address = (typeid_of j D).address) : C = D := by
  simp only [typeid_of] at h
  have h1 : Nat.pair i (Nat.pair C.local_to (encode_chars C.mangled.data))
      = Nat.pair j (Nat.pair D.local_to (encode_chars D.mangled.data)) := by omega
  have h2 := (Nat.pair_eq_pair.mp h1).2
  obtain ⟨h3, h4⟩ := Nat.pair_eq_pair.mp h2
  obtain ⟨cm, cl⟩ := C
  obtain ⟨dm, dl⟩ := D
  simp only at h3 h4
  have h5 : cm = dm := String.ext (encode_chars_injective _ _ h4)
  rw [h3, h5]

theorem checked_ptr_cast_eq (image : Nat) (T : cpp_class) (ptr : pointer)
    (h1 : c_string ptr.pointee.dynamic_class.mangled) (h2 : c_string T.mangled) :
    checked_ptr_cast image T ptr
      = if ptr.pointee.dynamic_class.mangled = T.mangled then ptr.address else NULL := by
  have hs := strcmp_eq_zero_iff _ _ h1 h2
  unfold checked_ptr_cast checked_ptr_cast_of
  by_cases hc : ptr.pointee.dynamic_class.mangled = T.mangled
  · have hn : strcmp (typeid_of ptr.pointee.image ptr.pointee.dynamic_class).name
        (typeid_of image T).name = 0 := hs.mpr hc
    rw [if_neg (fun h => h.2 hn), if_pos hc]
  · have hn : strcmp (typeid_of ptr.pointee.image ptr.pointee.dynamic_class).name
        (typeid_of image T).name ≠ 0 := fun h => hc (hs.mp h)
    have ha : (typeid_of ptr.pointee.image ptr.pointee.dynamic_class).address
        ≠ (typeid_of image T).address :=
      fun h => hc (congrArg cpp_class.mangled (typeid_address_eq _ _ _ _ h))
    rw [if_pos ⟨ha, hn⟩, if_neg hc]

/-- C9 (as amended): for every non-null pointer `p` and every requested class
`T`, `checked_ptr_cast<T>(p)` is non-null, and then `p` itself, if and only if
the `type_info` object of the dynamic class of `*p` is the one of `T` or has the
same name, that is if and only if the two classes have the same name. It is
therefore `p` when the dynamic class is exactly `T`, and null for every class
whose name differs from the one of `T`; for two classes that are not local to
different translation units it is non-null if and only if the dynamic class is
exactly `T`. -/
theorem checked_ptr_cast_iff (image : Nat) (T : cpp_class) (ptr : pointer)
    (hp : ptr.address ≠ NULL)
    (h1 : c_string ptr.pointee.dynamic_class.mangled) (h2 : c_string T.mangled) :
    (checked_ptr_cast image T ptr ≠ NULL ↔
      ((typeid_of ptr.pointee.image ptr.pointee.dynamic_class).address
          = (typeid_of image T).address ∨
        (typeid_of ptr.pointee.image ptr.pointee.dynamic_class).name
          = (typeid_of image T).name)) ∧
    (checked_ptr_cast image T ptr ≠ NULL ↔ ptr.pointee.dynamic_class.mangled = T.mangled) ∧
    (checked_ptr_cast image T ptr ≠ NULL → checked_ptr_cast image T ptr = ptr.address) ∧
    (ptr.pointee.dynamic_class = T → checked_ptr_cast image T ptr = ptr.address) ∧
    (ptr.pointee.dynamic_class.mangled ≠ T.mangled → checked_ptr_cast image T ptr = NULL) ∧
    (ptr.pointee.dynamic_class.local_to = T.local_to →
      (checked_ptr_cast image T ptr ≠ NULL ↔ ptr.pointee.dynamic_class = T)) := by
  have key : checked_ptr_cast image T ptr ≠ NULL ↔
      ptr.pointee.dynamic_class.mangled = T.mangled := by
    rw [checked_ptr_cast_eq image T ptr h1 h2]
    by_cases hc : ptr.pointee.dynamic_class.mangled = T.mangled
    · simp [hc, hp]
    · simp [hc]
  refine ⟨?_, key, ?_, ?_, ?_, ?_⟩
  · rw [key]
    constructor
    · intro hc
      exact Or.inr hc
    · rintro (ha | hn)
      · exact congrArg cpp_class.mangled (typeid_address_eq _ _ _ _ ha)
      · exact hn
  · intro hne
    rw [checked_ptr_cast_eq image T ptr h1 h2, if_pos (key.mp hne)]
  · intro hc
    rw [checked_ptr_cast_eq image T ptr h1 h2, if_pos (congrArg cpp_class.mangled hc)]
  · intro hc
    rw [checked_ptr_cast_eq image T ptr h1 h2, if_neg hc]
  · intro hl
    rw [key]
    constructor
    · intro hm
      generalize ptr.pointee.dynamic_class = C at hm hl
      obtain ⟨cm, cl⟩ := C
      obtain ⟨tm, tl⟩ := T
      simp only at hm hl
      rw [hm, hl]
    · intro hc
      exact congrArg cpp_class.mangled hc

/-- Witness of C9 (as amended): a `type_holder<int>` object created in image
1 and cast in image 0 is found as `type_holder<int>`, and is neither a
`type_holder<long long>` nor, for this cast, a `holder`. -/
theorem checked_ptr_cast_iff_witness :
    checked_ptr_cast 0 (c_type_holder s_int) ⟨4000, ⟨1, c_type_holder s_int⟩⟩ = 4000 ∧
    checked_ptr_cast 0 (c_type_holder s_long_long) ⟨4000, ⟨1, c_type_holder s_int⟩⟩ = NULL ∧
    checked_ptr_cast 0 c_holder ⟨4000, ⟨1, c_type_holder s_int⟩⟩ = NULL :=
  ⟨(checked_ptr_cast_iff 0 (c_type_holder s_int) ⟨4000, ⟨1, c_type_holder s_int⟩⟩
      (by decide) (by decide) (by decide)).2.2.2.1 rfl,
   (checked_ptr_cast_iff 0 (c_type_holder s_long_long) ⟨4000, ⟨1, c_type_holder s_int⟩⟩
      (by decide) (by decide) (by decide)).2.2.2.2.1 (by decide),
   (checked_ptr_cast_iff 0 c_holder ⟨4000, ⟨1, c_type_holder s_int⟩⟩
      (by decide) (by decide) (by decide)).2.2.2.2.1 (by decide)⟩

/-- C9 (as stated) fails: two translation units each define a class `A` in
their unnamed namespace; `type_holder<A>` of unit 1 and `type_holder<A>` of
unit 2 are distinct classes with distinct `type_info` objects of the same name,
and a pointer to an object of the first, requested as the second, comes back
non-null. -/
theorem checked_ptr_cast_same_name :
    c_type_holder_unnamed 1 ≠ c_type_holder_unnamed 2 ∧
    (typeid_of 0 (c_type_holder_unnamed 1)).address
      ≠ (typeid_of 0 (c_type_holder_unnamed 2)).address ∧
    (typeid_of 0 (c_type_holder_unnamed 1)).name = (typeid_of 0 (c_type_holder_unnamed 2)).name ∧
    checked_ptr_cast 0 (c_type_holder_unnamed 2) ⟨4000, ⟨0, c_type_holder_unnamed 1⟩⟩ = 4000 ∧
    (4000 : Nat) ≠ NULL := by
  have hne : c_type_holder_unnamed 1 ≠ c_type_holder_unnamed 2 := by decide
  refine ⟨hne, fun h => hne (typeid_address_eq _ _ _ _ h), rfl, ?_, by decide⟩
  rw [checked_ptr_cast_eq 0 (c_type_holder_unnamed 2) ⟨4000, ⟨0, c_type_holder_unnamed 1⟩⟩
    (by decide) (by decide)]
  rfl

/-! ## The kind description and the storage type read -/

theorem get_returned_storage (h : holder) (T : result_type) (v : cpp_value)
    (hr : h.get T = returned v) : h.t_.storage = some (implied_storage h.dt) := by
  obtain ⟨dt, t⟩ := h
  cases T <;> cases dt <;> cases t <;>
    first
    | rfl
    | (exfalso
       simp [holder.get, type_holder_cast_arithmetic, type_holder_cast_string,
         type_holder_cast_tm, value_double, value_int, value_long_long,
         value_unsigned_long_long, value_string, value_tm, outcome.bind, outcome.map] at hr)

theorem get_returns_for_kind (k : data_type) :
    ∃ (t : payload) (T : result_type) (v : cpp_value), (type_holder k t).get T = returned v := by
  cases k
  · exact ⟨p_string "", r_string, _, rfl⟩
  · exact ⟨p_tm ⟨0, 0, 0, 0, 0, 0, 0, 0, 0⟩, r_tm, _, rfl⟩
  · exact ⟨p_double fp_nan, r_arithmetic t_bool, _, rfl⟩
  · exact ⟨p_int 0, r_arithmetic t_bool, _, rfl⟩
  · exact ⟨p_long_long 0, r_arithmetic t_bool, _, rfl⟩
  · exact ⟨p_unsigned_long_long 0, r_arithmetic t_bool, _, rfl⟩
  · exact ⟨p_string "", r_string, _, rfl⟩
  · exact ⟨p_string "", r_string, _, rfl⟩

/-- C11 (as amended): every kind `k` has a description, the text the failure
message carries between "expected " and ", got "; a cast on kind `k` that
returns a value has read a `type_holder<U>` with `U` the storage type the kind
implies, and such a cast exists; the description of `k` begins with the name
of `U`: it is exactly that name for Text, Date, Double, Int32, Int64 and
UInt64, and that name followed by "(blob)" for Blob and by "(xml)" for Xml. -/
theorem desc_names_storage (k : data_type) :
    (∀ context, type_holder_bad_cast k context
      = std_bad_cast_what ++ ": expected " ++ desc k ++ ", got " ++ context) ∧
    (∀ (h : holder) (T : result_type) (v : cpp_value), h.dt = k → h.get T = returned v →
      h.t_.storage = some (implied_storage k)) ∧
    (∃ (t : payload) (T : result_type) (v : cpp_value), (type_holder k t).get T = returned v) ∧
    (∃ qualifier, desc k = (implied_storage k).cpp_name ++ qualifier) ∧
    (k ≠ dt_blob → k ≠ dt_xml → desc k = (implied_storage k).cpp_name) ∧
    (k = dt_blob → desc k = (implied_storage k).cpp_name ++ "(blob)") ∧
    (k = dt_xml → desc k = (implied_storage k).cpp_name ++ "(xml)") := by
  refine ⟨type_holder_bad_cast_eq k, ?_, get_returns_for_kind k, ?_, ?_, ?_, ?_⟩
  · intro h T v hk hr
    subst hk
    exact get_returned_storage h T v hr
  · cases k
    case dt_blob => exact ⟨"(blob)", by decide⟩
    case dt_xml => exact ⟨"(xml)", by decide⟩
    all_goals exact ⟨"", by decide⟩
  · intro h1 h2
    cases k <;> first | rfl | exact absurd rfl h1 | exact absurd rfl h2
  · rintro rfl
    decide
  · rintro rfl
    decide

/-- C11 (as stated) fails for Blob: a successful cast on kind Blob reads a
`type_holder<std::string>`, whose type is named "std::string", while the
description in the failure message is "std::string(blob)". -/
theorem desc_blob_not_type_name :
    (type_holder dt_blob (p_string "abc")).get r_string = returned (v_string "abc") ∧
    implied_storage dt_blob = s_string ∧
    storage_type.cpp_name s_string = "std::string" ∧
    type_holder_bad_cast dt_blob "std::tm"
      = "std::bad_cast: expected std::string(blob), got std::tm" ∧
    desc dt_blob = "std::string(blob)" ∧
    desc dt_blob ≠ (implied_storage dt_blob).cpp_name :=
  ⟨rfl, rfl, rfl, by decide, rfl, by decide⟩

/-! ## Retrieval is read-only -/

theorem holder_get_at_memory (m : memory) (a : Nat) (T : result_type) :
    (holder_get_at m a T).2 = m := by
  unfold holder_get_at
  cases m.holder_at a <;> rfl

theorem type_holder_value_at_memory (m : memory) (a : Nat) :
    (type_holder_value_at m a).2 = m := by
  unfold type_holder_value_at
  split
  · split <;> rfl
  · rfl

theorem get_repeatedly_eq (m : memory) (a : Nat) (T : result_type) (n : Nat) :
    get_repeatedly m a T n = (List.replicate n (holder_get_at m a T).1, m) := by
  induction n with
  | zero => rfl
  | succ n ih =>
    simp only [get_repeatedly, holder_get_at_memory, ih, List.replicate_succ]

theorem holder_at_new_type_holder (m0 : memory) (a t : Nat) (dt : data_type) (p : payload)
    (ht : m0.cells t = some (owned_value p)) (hat : a ≠ t) :
    (new_type_holder m0 a dt t).holder_at a = some (type_holder dt p) := by
  have h1 : (new_type_holder m0 a dt t).cells a = some (typed_object dt t) := by
    simp [new_type_holder]
  have h2 : (new_type_holder m0 a dt t).cells t = some (owned_value p) := by
    simp [new_type_holder, Function.update_noteq (Ne.symm hat), ht]
  simp only [memory.holder_at, h1, h2, type_holder]

/-- C12: retrieval is read-only. For a container constructed at address `a`
with kind `dt` over the value `p` at address `t`, every call of `get<T>()` and
of `value()` leaves the memory as it was, so the object still holds `dt` and
the value `p`; `n` successive calls of `get<T>()` all give the result of
`get<T>()` on the container as constructed (the same value, or the same
failure) and `value()` returns `p`. -/
theorem get_read_only (m0 : memory) (a t : Nat) (dt : data_type) (p : payload)
    (T : result_type) (n : Nat)
    (ht : m0.cells t = some (owned_value p)) (hat : a ≠ t) :
    (holder_get_at (new_type_holder m0 a dt t) a T).2 = new_type_holder m0 a dt t ∧
    type_holder_value_at (new_type_holder m0 a dt t) a = (returned p, new_type_holder m0 a dt t) ∧
    get_repeatedly (new_type_holder m0 a dt t) a T n
      = (List.replicate n ((type_holder dt p).get T), new_type_holder m0 a dt t) ∧
    (get_repeatedly (new_type_holder m0 a dt t) a T n).2.cells a = some (typed_object dt t) ∧
    (get_repeatedly (new_type_holder m0 a dt t) a T n).2.cells t = some (owned_value p) := by
  have h1 : (new_type_holder m0 a dt t).cells a = some (typed_object dt t) := by
    simp [new_type_holder]
  have h2 : (new_type_holder m0 a dt t).cells t = some (owned_value p) := by
    simp [new_type_holder, Function.update_noteq (Ne.symm hat), ht]
  have hg : (holder_get_at (new_type_holder m0 a dt t) a T).1 = (type_holder dt p).get T := by
    simp only [holder_get_at, holder_at_new_type_holder m0 a t dt p ht hat]
  refine ⟨holder_get_at_memory _ _ _, ?_, ?_, ?_, ?_⟩
  · simp only [type_holder_value_at, h1, h2]
  · rw [get_repeatedly_eq, hg]
  · rw [get_repeatedly_eq]; exact h1
  · rw [get_repeatedly_eq]; exact h2

/-- Witness of C12: a container of kind Int32 built at address 16 over the
value at address 32; three text requests give the same failure three times,
and the object still holds its kind and its value afterwards. -/
theorem get_read_only_witness :
    (get_repeatedly (new_type_holder sample_memory 16 dt_integer 32) 16 r_string 3).1
      = [thrown "std::bad_cast: expected int, got std::string",
         thrown "std::bad_cast: expected int, got std::string",
         thrown "std::bad_cast: expected int, got std::string"] ∧
    type_holder_value_at (new_type_holder sample_memory 16 dt_integer 32) 16
      = (returned (p_int 42), new_type_holder sample_memory 16 dt_integer 32) ∧
    (get_repeatedly (new_type_holder sample_memory 16 dt_integer 32) 16 r_string 3).2.cells 16
      = some (typed_object dt_integer 32) ∧
    (get_repeatedly (new_type_holder sample_memory 16 dt_integer 32) 16 r_string 3).2.cells 32
      = some (owned_value (p_int 42)) := by
  have h := get_read_only sample_memory 16 32 dt_integer (p_int 42) r_string 3 rfl (by decide)
  refine ⟨?_, h.2.1, h.2.2.2.1, h.2.2.2.2⟩
  rw [h.2.2.1]
  decide

/-! ## Destruction through the base handle -/

/-- C13: destroying a container through its `holder*` handle releases the
owned value exactly once, whatever the storage type of the value. For an
object of class `type_holder<U>` at address `a` that owns the live value at
address `t`, `delete` on the handle is defined, runs `~type_holder`, which
releases `t` once (one more release of `t` is recorded, `t` is no longer live),
then releases the object; no other allocation is touched, and `get<T>()`
releases nothing. -/
theorem delete_holder_releases_once (m : memory) (a t : Nat) (dt : data_type) (p : payload)
    (ha : m.cells a = some (typed_object dt t)) (ht : m.cells t = some (owned_value p))
    (ha0 : a ≠ NULL) (ht0 : t ≠ NULL) :
    ∃ m1, delete_holder m a = returned m1 ∧
      m1.deleted = m.deleted ++ [t, a] ∧
      m1.deleted.count t = m.deleted.count t + 1 ∧
      m1.cells t = none ∧ m1.cells a = none ∧
      (∀ b, b ≠ a → b ≠ t → m1.cells b = m.cells b) ∧
      (∀ T, (holder_get_at m a T).2.deleted = m.deleted) := by
  have hat : a ≠ t := by
    intro h
    rw [h, ht] at ha
    cases ha
  refine ⟨{ cells := Function.update (Function.update m.cells t none) a none,
            deleted := m.deleted ++ [t] ++ [a] }, ?_, ?_, ?_, ?_, ?_, ?_, ?_⟩
  · simp only [delete_holder, if_neg ha0, ha, type_holder_destructor, delete_value, if_neg ht0,
      ht, outcome.bind, holder_destructor, release_object]
  · simp
  · simp [List.count_append, List.count_cons, Ne.symm hat, hat]
  · simp [Function.update_noteq (Ne.symm hat)]
  · simp
  · intro b hba hbt
    simp [Function.update_noteq hba, Function.update_noteq hbt]
  · intro T
    rw [holder_get_at_memory]

/-- Witness of C13: the container of kind Int32 at address 16 owning the value
at address 32. -/
theorem delete_holder_releases_once_witness :
    ∃ m1, delete_holder (new_type_holder sample_memory 16 dt_integer 32) 16 = returned m1 ∧
      m1.deleted = [32, 16] ∧
      m1.deleted.count 32 = 1 ∧
      m1.cells 32 = none ∧ m1.cells 16 = none := by
  obtain ⟨m1, h1, h2, h3, h4, h5, _, _⟩ :=
    delete_holder_releases_once (new_type_holder sample_memory 16 dt_integer 32) 16 32
      dt_integer (p_int 42) (by simp [new_type_holder]) (by simp [new_type_holder, sample_memory])
      (by decide) (by decide)
  exact ⟨m1, h1, h2, h3, h4, h5⟩

/-! ## The downcast: identity first, then name -/

/-- C14: `checked_ptr_cast<T>(p)` decides by the identity of the two
`type_info` objects, then by their names. For a non-null `p` the result is null
exactly when the objects are distinct and their names differ; when they are the
same object, or distinct objects with equal names, the result is `p` itself. -/
theorem checked_ptr_cast_token_then_name (ti_ptr ti_ret : type_info) (ptr : Nat)
    (hn1 : c_string ti_ptr.name) (hn2 : c_string ti_ret.name) (hp : ptr ≠ NULL) :
    (checked_ptr_cast_of ti_ptr ti_ret ptr = NULL ↔
      (ti_ptr.address ≠ ti_ret.address ∧ ti_ptr.name ≠ ti_ret.name)) ∧
    (ti_ptr.address = ti_ret.address → checked_ptr_cast_of ti_ptr ti_ret ptr = ptr) ∧
    (ti_ptr.address ≠ ti_ret.address → ti_ptr.name = ti_ret.name →
      checked_ptr_cast_of ti_ptr ti_ret ptr = ptr) := by
  have hs := strcmp_eq_zero_iff ti_ptr.name ti_ret.name hn1 hn2
  unfold checked_ptr_cast_of
  refine ⟨?_, ?_, ?_⟩
  · by_cases hc : ti_ptr.address ≠ ti_ret.address ∧ strcmp ti_ptr.name ti_ret.name ≠ 0
    · rw [if_pos hc]
      exact ⟨fun _ => ⟨hc.1, fun e => hc.2 (hs.mpr e)⟩, fun _ => rfl⟩
    · rw [if_neg hc]
      exact ⟨fun e => absurd e hp, fun h => absurd ⟨h.1, fun e => h.2 (hs.mp e)⟩ hc⟩
  · intro e
    rw [if_neg (fun h => h.1 e)]
  · intro _ e
    rw [if_neg (fun h => h.2 (hs.mpr e))]

/-- Witness of C14, the cross-module case: the `type_info` objects of
`type_holder<int>` in two binary images are distinct objects with equal names,
and the pointer is returned unchanged. -/
theorem checked_ptr_cast_token_then_name_witness :
    (typeid_of 1 (c_type_holder s_int)).address ≠ (typeid_of 0 (c_type_holder s_int)).address ∧
    (typeid_of 1 (c_type_holder s_int)).name = (typeid_of 0 (c_type_holder s_int)).name ∧
    checked_ptr_cast_of (typeid_of 1 (c_type_holder s_int)) (typeid_of 0 (c_type_holder s_int))
      4000 = 4000 :=
  ⟨by decide, rfl,
   (checked_ptr_cast_token_then_name (typeid_of 1 (c_type_holder s_int))
      (typeid_of 0 (c_type_holder s_int)) 4000 (by decide) (by decide) (by decide)).2.2
      (by decide) rfl⟩

/-! ## The three categories partition the kinds -/

/-- C15: for every kind, and whatever the container and the arithmetic type
requested, exactly one of the three dispatch functions (arithmetic,
`std::string`, `std::tm`) does not raise `type_holder_bad_cast` and the other
two raise it. -/
theorem dispatch_partition (A : arith_type) (dt : data_type) (hl : holder) :
    ((type_holder_cast_arithmetic A dt hl).raises = false ∧
      (type_holder_cast_string dt hl).raises = true ∧
      (type_holder_cast_tm dt hl).raises = true) ∨
    ((type_holder_cast_arithmetic A dt hl).raises = true ∧
      (type_holder_cast_string dt hl).raises = false ∧
      (type_holder_cast_tm dt hl).raises = true) ∨
    ((type_holder_cast_arithmetic A dt hl).raises = true ∧
      (type_holder_cast_string dt hl).raises = true ∧
      (type_holder_cast_tm dt hl).raises = false) := by
  have hd := bind_value_raises _ _ (value_double_raises hl) (cast_of_double_raises A)
  have hi := bind_value_raises _ _ (value_int_raises hl) (cast_of_int_raises A)
  have hll := bind_value_raises _ _ (value_long_long_raises hl) (cast_of_int_raises A)
  have hu := bind_value_raises _ _ (value_unsigned_long_long_raises hl) (cast_of_int_raises A)
  have hs := value_string_raises hl
  have ht := value_tm_raises hl
  cases dt <;>
    simp [type_holder_cast_arithmetic, type_holder_cast_string, type_holder_cast_tm,
      raises_thrown, hd, hi, hll, hu, hs, ht]

/-! ## The message identifies the kind -/

theorem string_append_right_cancel (a b c : String) (h : a ++ c = b ++ c) : a = b := by
  apply String.ext
  have h2 := congrArg String.data h
  simp only [String.data_append] at h2
  exact List.append_cancel_right h2

theorem type_holder_bad_cast_split (dt : data_type) (context : String) :
    type_holder_bad_cast dt context = type_holder_bad_cast dt "" ++ context := by
  cases dt <;> simp [type_holder_bad_cast, String.append_empty] <;> rfl

theorem type_holder_bad_cast_head_injective (k1 k2 : data_type)
    (h : type_holder_bad_cast k1 "" = type_holder_bad_cast k2 "") : k1 = k2 := by
  cases k1 <;> cases k2 <;> first | rfl | exact absurd h (by decide)

/-- C16: the kind description of `type_holder_bad_cast` is injective over the
eight kinds; Text, Blob and Xml are described by "std::string",
"std::string(blob)" and "std::string(xml)"; for a fixed requested type name,
failures built from different kinds have different messages. -/
theorem bad_cast_message_identifies_kind :
    (∀ k context, type_holder_bad_cast k context
      = std_bad_cast_what ++ ": expected " ++ desc k ++ ", got " ++ context) ∧
    Function.Injective desc ∧
    desc dt_string = "std::string" ∧ desc dt_blob = "std::string(blob)" ∧
    desc dt_xml = "std::string(xml)" ∧
    (∀ (context : String) (k1 k2 : data_type), k1 ≠ k2 →
      type_holder_bad_cast k1 context ≠ type_holder_bad_cast k2 context) := by
  refine ⟨type_holder_bad_cast_eq, ?_, rfl, rfl, rfl, ?_⟩
  · intro k1 k2 h
    cases k1 <;> cases k2 <;> first | rfl | exact absurd h (by decide)
  · intro context k1 k2 hne h
    rw [type_holder_bad_cast_split k1, type_holder_bad_cast_split k2] at h
    exact hne (type_holder_bad_cast_head_injective k1 k2 (string_append_right_cancel _ _ _ h))

/-! ## Integers read as bool -/

/-- C17: `bool` is an arithmetic result type, converted by comparison with
zero: for every integer kind and stored value `v`, `get<bool>()` returns `true`
if and only if `v` is not zero, and `false` otherwise. -/
theorem get_bool_zero_test (h : holder) (v : Int) (hh : stores_integer h v) :
    arith_type.classify t_bool = c_bool ∧
    h.get_arithmetic t_bool = returned (a_bool (decide (v ≠ 0))) ∧
    (h.get_arithmetic t_bool = returned (a_bool true) ↔ v ≠ 0) ∧
    (h.get_arithmetic t_bool = returned (a_bool false) ↔ v = 0) := by
  have hg : h.get_arithmetic t_bool = returned (a_bool (decide (v ≠ 0))) := by
    rw [get_arithmetic_of_stores_integer h v t_bool hh]
    rfl
  refine ⟨rfl, hg, ?_, ?_⟩
  · rw [hg]
    by_cases hv : v = 0 <;> simp [hv]
  · rw [hg]
    by_cases hv : v = 0 <;> simp [hv]

/-- Witness of C17: the `long long` value 2, whose low bit is 0, is read as
`true`. -/
theorem get_bool_zero_test_witness :
    (type_holder dt_long_long (p_long_long 2)).get_arithmetic t_bool = returned (a_bool true) ∧
    (2 : Int) % 2 = 0 :=
  ⟨((get_bool_zero_test (type_holder dt_long_long (p_long_long 2)) 2
      (Or.inr (Or.inl rfl))).2.2.1).mpr (by decide), by decide⟩

end soci.details
